import Mathlib

/-!
# Formal model of the cloudy-road geospatial analytics core

A shallow embedding of the geospatial pipeline of the `cloudy-road`
repository, together with theorems settling the specification claims.

Embedding conventions:
* JavaScript numbers are modelled as exact rationals (`ℚ`); the rounding
  helpers `Math.round(x * 100) / 100` and `Math.round(x * 1000) / 1000`
  become `round2` / `round3` built on `⌊x + 1/2⌋`, which is the exact
  behaviour of JS `Math.round` (round half toward positive infinity).
* Geographic points are `(lng, lat)` pairs of rationals, as in the source.
* External library primitives (`@turf/distance`, `h3-js` cell conversion,
  grid distance, `@turf/center-of-mass`) are function parameters of the
  embedded pipeline; `h3-js.gridDistance`, which throws for cells on
  different icosahedron faces, is modelled as an `Option`-valued function.
* `@turf/clusters-dbscan` is modelled by an executable DBSCAN over a
  point list: core points are points with at least `minPoints` input
  points (inclusive) within `eps`, clusters are the points within `eps`
  of a connected component of core points, components enumerated in
  input order.
-/

namespace CloudyRoad

/-- A geographic coordinate pair `(lng, lat)`, as stored by the source. -/
abbrev Point : Type := ℚ × ℚ

/-- JS `Math.round`: round half toward positive infinity. -/
def jsRound (x : ℚ) : ℤ := ⌊x + 1 / 2⌋

/-- JS `Math.round(x * 100) / 100`: round to 2 decimal places. -/
def round2 (x : ℚ) : ℚ := (jsRound (x * 100) : ℚ) / 100

/-- JS `Math.round(x * 1000) / 1000`: round to 3 decimal places. -/
def round3 (x : ℚ) : ℚ := (jsRound (x * 1000) : ℚ) / 1000

/-- JS `String.prototype.includes`: substring containment. -/
def strIncludes (hay needle : String) : Bool := decide (needle.data <:+: hay.data)

/-- JS `String.prototype.toLowerCase`, restricted to the ASCII range of the
maneuver modifiers produced by the routing provider. -/
def jsToLower (s : String) : String := String.mk (s.data.map Char.toLower)

/-! ## Route Flow Scorer (`src/lib/scoring.ts`) -/

/-- The `maneuver` field of a route step (`src/lib/actions/directions.ts`). -/
structure Maneuver where
  type : String
  modifier : Option String
  loc : Point
deriving DecidableEq

/-- A single turn-by-turn step (`RouteStep` in `src/lib/actions/directions.ts`). -/
structure RouteStep where
  instruction : String
  distance : ℚ
  duration : ℚ
  maneuver : Maneuver
deriving DecidableEq

/-- Result of flow score calculation (`FlowScore` in `src/lib/scoring.ts`). -/
structure FlowScore where
  turnCount : ℕ
  turnsPerKm : ℚ
  flowPenalty : ℚ
deriving DecidableEq

/-- `isTurnManeuver` from `src/lib/scoring.ts`.  The `modifier` guard models
JS truthiness: a missing modifier and the empty string are both falsy. -/
def isTurnManeuver (step : RouteStep) : Bool :=
  let t := step.maneuver.type
  if t == "turn" || t == "end of road" then true
  else if t == "rotary" || t == "roundabout" then true
  else if t == "new name" then
    match step.maneuver.modifier with
    | none => false
    | some m =>
      if m == "" then false
      else
        let modLower := jsToLower m
        strIncludes modLower "left" || strIncludes modLower "right"
  else false

/-- `calculateFlowScore` from `src/lib/scoring.ts`. -/
def calculateFlowScore (steps : List RouteStep) (distanceMeters : ℚ) : FlowScore :=
  let turnCount := (steps.filter isTurnManeuver).length
  let distanceKm := distanceMeters / 1000
  let turnsPerKm : ℚ := if 0 < distanceKm then (turnCount : ℚ) / distanceKm else 0
  let flowPenalty : ℚ :=
    if turnsPerKm < 3 then 1
    else if 12 < turnsPerKm then 0
    else 1 - (turnsPerKm - 3) / (12 - 3)
  { turnCount := turnCount
    turnsPerKm := round2 turnsPerKm
    flowPenalty := round3 flowPenalty }

/-- The spec's turn predicate, transcribed from the specification text:
a step is a turn iff its maneuver type is "turn" or "end of road", or
"rotary" or "roundabout", or "new name" with a present modifier whose
lowercased value contains the substring "left" or "right". -/
def isTurnSpec (step : RouteStep) : Prop :=
  step.maneuver.type = "turn" ∨ step.maneuver.type = "end of road" ∨
  step.maneuver.type = "rotary" ∨ step.maneuver.type = "roundabout" ∨
  (step.maneuver.type = "new name" ∧
    ∃ m, step.maneuver.modifier = some m ∧
      (strIncludes (jsToLower m) "left" = true ∨ strIncludes (jsToLower m) "right" = true))

/-- The spec's piecewise flow-penalty curve over an (unrounded) turns-per-km
value: `1` below 3, `0` above 12, linear interpolation in between. -/
def penaltyCurve (t : ℚ) : ℚ :=
  if t < 3 then 1 else if 12 < t then 0 else 1 - (t - 3) / 9

/-- The spec's turns-per-km formula: `turnCount / (distanceMeters / 1000)`,
or `0` when the distance is zero. -/
def turnsPerKmSpec (turnCount : ℕ) (distanceMeters : ℚ) : ℚ :=
  if distanceMeters = 0 then 0 else (turnCount : ℚ) / (distanceMeters / 1000)

/-- A mock turn step, as in `scripts/test-flow-score.ts`. -/
def mockTurnStep : RouteStep :=
  { instruction := "Turn left"
    distance := 100
    duration := 10
    maneuver := { type := "turn", modifier := some "left", loc := (0, 0) } }

/-- The flow-penalty curve always lies in `[0, 1]`. -/
lemma penaltyCurve_nonneg (t : ℚ) : 0 ≤ penaltyCurve t := by
  unfold penaltyCurve
  split_ifs with h1 h2
  · norm_num
  · norm_num
  · have h3 : (3 : ℚ) ≤ t := le_of_not_lt h1
    have h12 : t ≤ 12 := le_of_not_lt h2
    have : (t - 3) / 9 ≤ 1 := by
      rw [div_le_one (by norm_num)]
      linarith
    linarith

lemma penaltyCurve_le_one (t : ℚ) : penaltyCurve t ≤ 1 := by
  unfold penaltyCurve
  split_ifs with h1 h2
  · norm_num
  · norm_num
  · have h3 : (3 : ℚ) ≤ t := le_of_not_lt h1
    have : 0 ≤ (t - 3) / 9 := by
      apply div_nonneg _ (by norm_num)
      linarith
    linarith

/-- `round3` keeps values of `[0, 1]` inside `[0, 1]`. -/
lemma round3_mem_unit {x : ℚ} (h0 : 0 ≤ x) (h1 : x ≤ 1) :
    0 ≤ round3 x ∧ round3 x ≤ 1 := by
  unfold round3 jsRound
  constructor
  · have : (0 : ℤ) ≤ ⌊x * 1000 + 1 / 2⌋ := by
      apply Int.floor_nonneg.mpr
      positivity
    have : (0 : ℚ) ≤ (⌊x * 1000 + 1 / 2⌋ : ℚ) := by exact_mod_cast this
    positivity
  · rw [div_le_one (by norm_num)]
    have hle : ⌊x * 1000 + 1 / 2⌋ ≤ ⌊(2001 : ℚ) / 2⌋ := by
      apply Int.floor_le_floor
      linarith
    have : ⌊(2001 : ℚ) / 2⌋ = 1000 := by norm_num
    have : ⌊x * 1000 + 1 / 2⌋ ≤ 1000 := by omega
    exact_mod_cast this

/-- The (unrounded) turns-per-km value computed by `calculateFlowScore`
agrees with the spec formula whenever the distance is nonnegative. -/
lemma turnsPerKm_code_eq_spec (tc : ℕ) (distanceMeters : ℚ)
    (h : 0 ≤ distanceMeters) :
    (if 0 < distanceMeters / 1000 then (tc : ℚ) / (distanceMeters / 1000) else 0)
      = turnsPerKmSpec tc distanceMeters := by
  unfold turnsPerKmSpec
  rcases eq_or_lt_of_le h with h0 | h0
  · simp [← h0]
  · rw [if_pos (by positivity), if_neg (by positivity)]

/-- The flow-penalty branch of `calculateFlowScore` is the spec curve. -/
lemma flowPenalty_code_eq_curve (t : ℚ) :
    (if t < 3 then (1 : ℚ) else if 12 < t then 0 else 1 - (t - 3) / (12 - 3))
      = penaltyCurve t := by
  unfold penaltyCurve
  norm_num

lemma isTurnManeuver_mockTurnStep : isTurnManeuver mockTurnStep = true := by decide

/-- **C2.** `calculateFlowScore` returns `turnsPerKm = turnCount / (distance/1000)`
(`0` for zero distance) rounded to 2 decimals, and `flowPenalty` equal to the
piecewise-linear curve (1 below 3 turns/km, 0 above 12, linear in between)
rounded to 3 decimals, always in `[0,1]`; the three literal scenarios from the
spec hold: 20 turns / 20000 m ↦ (1.0, 1.0), 15 turns / 1000 m ↦ (15.0, 0.0),
20 turns / 5000 m ↦ (4.0, 0.889). -/
theorem c2_calculateFlowScore_formula :
    (∀ (steps : List RouteStep) (distanceMeters : ℚ), 0 ≤ distanceMeters →
      (calculateFlowScore steps distanceMeters).turnsPerKm
          = round2 (turnsPerKmSpec (steps.filter isTurnManeuver).length distanceMeters)
        ∧ (calculateFlowScore steps distanceMeters).flowPenalty
          = round3 (penaltyCurve
              (turnsPerKmSpec (steps.filter isTurnManeuver).length distanceMeters))
        ∧ 0 ≤ (calculateFlowScore steps distanceMeters).flowPenalty
        ∧ (calculateFlowScore steps distanceMeters).flowPenalty ≤ 1)
    ∧ calculateFlowScore (List.replicate 20 mockTurnStep) 20000 = ⟨20, 1, 1⟩
    ∧ calculateFlowScore (List.replicate 15 mockTurnStep) 1000 = ⟨15, 15, 0⟩
    ∧ calculateFlowScore (List.replicate 20 mockTurnStep) 5000 = ⟨20, 4, 889 / 1000⟩ := by
  refine ⟨?_, ?_, ?_, ?_⟩
  · intro steps distanceMeters h
    simp only [calculateFlowScore]
    rw [turnsPerKm_code_eq_spec _ _ h, flowPenalty_code_eq_curve]
    refine ⟨rfl, rfl, ?_, ?_⟩
    · exact (round3_mem_unit (penaltyCurve_nonneg _) (penaltyCurve_le_one _)).1
    · exact (round3_mem_unit (penaltyCurve_nonneg _) (penaltyCurve_le_one _)).2
  · unfold calculateFlowScore
    rw [List.filter_replicate]
    simp only [isTurnManeuver_mockTurnStep, if_true, List.length_replicate]
    norm_num [round2, round3, jsRound]
  · unfold calculateFlowScore
    rw [List.filter_replicate]
    simp only [isTurnManeuver_mockTurnStep, if_true, List.length_replicate]
    norm_num [round2, round3, jsRound]
  · unfold calculateFlowScore
    rw [List.filter_replicate]
    simp only [isTurnManeuver_mockTurnStep, if_true, List.length_replicate]
    norm_num [round2, round3, jsRound, penaltyCurve]

/-- Witness for `c2_calculateFlowScore_formula` at a concrete input. -/
theorem c2_calculateFlowScore_formula_witness :
    (0 : ℚ) ≤ 20000 ∧
      ((calculateFlowScore (List.replicate 20 mockTurnStep) 20000).turnsPerKm
          = round2 (turnsPerKmSpec
              ((List.replicate 20 mockTurnStep).filter isTurnManeuver).length 20000)
        ∧ (calculateFlowScore (List.replicate 20 mockTurnStep) 20000).flowPenalty
          = round3 (penaltyCurve (turnsPerKmSpec
              ((List.replicate 20 mockTurnStep).filter isTurnManeuver).length 20000))
        ∧ 0 ≤ (calculateFlowScore (List.replicate 20 mockTurnStep) 20000).flowPenalty
        ∧ (calculateFlowScore (List.replicate 20 mockTurnStep) 20000).flowPenalty ≤ 1) :=
  ⟨by norm_num,
    c2_calculateFlowScore_formula.1 (List.replicate 20 mockTurnStep) 20000 (by norm_num)⟩

/-- **C3.** A route step counts as a turn exactly under the spec's rules
(explicit turn / end of road, rotary / roundabout, or a "new name" step whose
present modifier contains "left" or "right" case-insensitively), and the
`turnCount` of a flow score is the number of steps satisfying the predicate. -/
theorem c3_turn_predicate :
    (∀ step : RouteStep, isTurnManeuver step = true ↔ isTurnSpec step)
    ∧ (∀ (steps : List RouteStep) (distanceMeters : ℚ),
        (calculateFlowScore steps distanceMeters).turnCount
          = steps.countP isTurnManeuver) := by
  constructor
  · intro step
    rcases step with ⟨instr, dist, dur, ⟨t, mo, loc⟩⟩
    rcases mo with _ | m
    · by_cases h1 : t = "turn" <;> by_cases h2 : t = "end of road" <;>
        by_cases h3 : t = "rotary" <;> by_cases h4 : t = "roundabout" <;>
        by_cases h5 : t = "new name" <;>
        simp_all [isTurnManeuver, isTurnSpec]
    · by_cases h1 : t = "turn" <;> by_cases h2 : t = "end of road" <;>
        by_cases h3 : t = "rotary" <;> by_cases h4 : t = "roundabout" <;>
        by_cases h5 : t = "new name" <;> by_cases h6 : m = "" <;>
        simp_all [isTurnManeuver, isTurnSpec, strIncludes, jsToLower]
  · intro steps distanceMeters
    simp [calculateFlowScore, List.countP_eq_length_filter]

/-- **C9.** `flowPenalty` is the curve applied to the exact (unrounded)
quotient, rounded to 3 decimals afterwards — not the curve applied to the
2-decimal `turnsPerKm` reported alongside it: with 8 turn steps over 1993 m
the result reports `turnsPerKm = 4.01` and `flowPenalty = 0.887`, while the
curve at 4.01 rounds to 0.888. -/
theorem c9_penalty_from_unrounded :
    (∀ (steps : List RouteStep) (distanceMeters : ℚ), 0 < distanceMeters →
      (calculateFlowScore steps distanceMeters).flowPenalty
        = round3 (penaltyCurve
            (((steps.filter isTurnManeuver).length : ℚ) / (distanceMeters / 1000))))
    ∧ (calculateFlowScore (List.replicate 8 mockTurnStep) 1993).turnsPerKm = 401 / 100
    ∧ (calculateFlowScore (List.replicate 8 mockTurnStep) 1993).flowPenalty = 887 / 1000
    ∧ round3 (penaltyCurve
          ((calculateFlowScore (List.replicate 8 mockTurnStep) 1993).turnsPerKm))
        ≠ (calculateFlowScore (List.replicate 8 mockTurnStep) 1993).flowPenalty := by
  have heval : calculateFlowScore (List.replicate 8 mockTurnStep) 1993
      = ⟨8, 401 / 100, 887 / 1000⟩ := by
    unfold calculateFlowScore
    rw [List.filter_replicate]
    simp only [isTurnManeuver_mockTurnStep, if_true, List.length_replicate]
    norm_num [round2, round3, jsRound, penaltyCurve]
  refine ⟨?_, ?_, ?_, ?_⟩
  · intro steps distanceMeters h
    simp only [calculateFlowScore]
    rw [if_pos (show (0 : ℚ) < distanceMeters / 1000 by positivity),
      flowPenalty_code_eq_curve]
  · rw [heval]
  · rw [heval]
  · rw [heval]
    norm_num [round3, jsRound, penaltyCurve]

/-- Witness for `c9_penalty_from_unrounded` at a concrete input. -/
theorem c9_penalty_from_unrounded_witness :
    (0 : ℚ) < 1993 ∧
      (calculateFlowScore (List.replicate 8 mockTurnStep) 1993).flowPenalty
        = round3 (penaltyCurve
            ((((List.replicate 8 mockTurnStep).filter isTurnManeuver).length : ℚ)
              / (1993 / 1000))) :=
  ⟨by norm_num,
    c9_penalty_from_unrounded.1 (List.replicate 8 mockTurnStep) 1993 (by norm_num)⟩

/-! ## Grid Coverage Mapper (`src/lib/h3.ts`) -/

/-- `H3_RESOLUTION` from `src/lib/h3.ts` (the fixed working resolution). -/
def H3_RESOLUTION : ℕ := 10

/-- `MAX_GAP_METERS` from `src/lib/h3.ts`: interpolate if a gap exceeds this. -/
def MAX_GAP_METERS : ℚ := 50

section GridCoverage

variable {Cell : Type} [DecidableEq Cell]

/-- JS `Set.prototype.add` on a first-occurrence-ordered list. -/
def insertOnce (s : List Cell) (c : Cell) : List Cell := if c ∈ s then s else s ++ [c]

variable (d : Point → Point → ℚ) (latLngToCell : ℚ → ℚ → Cell)

/-- The grid cell of a `(lng, lat)` point: `latLngToCell(lat, lng, H3_RESOLUTION)`. -/
def cellOfPoint (p : Point) : Cell := latLngToCell p.2 p.1

/-- Linear interpolation in coordinate space between two points, as in the
source: `lng1 + (lng2 - lng1) * t`, `lat1 + (lat2 - lat1) * t`. -/
def lerpPoint (p q : Point) (t : ℚ) : Point :=
  (p.1 + (q.1 - p.1) * t, p.2 + (q.2 - p.2) * t)

/-- `Math.ceil(dist / MAX_GAP_METERS)`: the sub-segment count of one gap. -/
def stepsFor (dist : ℚ) : ℕ := (Int.ceil (dist / MAX_GAP_METERS)).toNat

/-- The interpolated points emitted for one oversized gap: the fraction
`j / steps` along the segment for `j = 1, …, steps - 1`. -/
def interpPoints (p q : Point) : List Point :=
  (List.range' 1 (stepsFor (d p q) - 1)).map
    (fun (j : ℕ) => lerpPoint p q ((j : ℚ) / (stepsFor (d p q) : ℚ)))

/-- One iteration of the pair loop of `trackToH3Indices`: add the cell of the
segment start; if the gap exceeds the threshold, also add the cell of each
interpolated point. -/
def emitSegment (s : List Cell) (p q : Point) : List Cell :=
  let s1 := insertOnce s (cellOfPoint latLngToCell p)
  if MAX_GAP_METERS < d p q then
    (interpPoints d p q).foldl
      (fun s2 pt => insertOnce s2 (cellOfPoint latLngToCell pt)) s1
  else s1

/-- The loop over consecutive coordinate pairs of `trackToH3Indices`. -/
def processPairs (s : List Cell) : List Point → List Cell
  | [] => s
  | [_] => s
  | p :: q :: rest => processPairs (emitSegment d latLngToCell s p q) (q :: rest)

/-- `trackToH3Indices` from `src/lib/h3.ts`: run the pair loop from an empty
set, then add the cell of the final point. -/
def trackToH3Indices : List Point → List Cell
  | [] => []
  | c :: cs =>
    insertOnce (processPairs d latLngToCell [] (c :: cs))
      (cellOfPoint latLngToCell ((c :: cs).getLast (List.cons_ne_nil c cs)))

lemma mem_insertOnce_self (s : List Cell) (c : Cell) : c ∈ insertOnce s c := by
  unfold insertOnce
  split_ifs with h
  · exact h
  · simp

lemma mem_insertOnce_of_mem {x : Cell} (s : List Cell) (c : Cell) (h : x ∈ s) :
    x ∈ insertOnce s c := by
  unfold insertOnce
  split_ifs
  · exact h
  · exact List.mem_append_left _ h

lemma nodup_insertOnce (s : List Cell) (c : Cell) (h : s.Nodup) :
    (insertOnce s c).Nodup := by
  unfold insertOnce
  split_ifs with hc
  · exact h
  · refine List.Nodup.append h (List.nodup_singleton c) ?_
    intro a ha hb
    simp only [List.mem_singleton] at hb
    subst hb
    exact hc ha

lemma mem_foldl_insertOnce {α : Type} (g : α → Cell) {x : Cell} :
    ∀ (l : List α) (s : List Cell), x ∈ s →
      x ∈ l.foldl (fun s2 a => insertOnce s2 (g a)) s := by
  intro l
  induction l with
  | nil => intro s h; simpa using h
  | cons a l ih => intro s h; exact ih _ (mem_insertOnce_of_mem _ _ h)

lemma nodup_foldl_insertOnce {α : Type} (g : α → Cell) :
    ∀ (l : List α) (s : List Cell), s.Nodup →
      (l.foldl (fun s2 a => insertOnce s2 (g a)) s).Nodup := by
  intro l
  induction l with
  | nil => intro s h; simpa using h
  | cons a l ih => intro s h; exact ih _ (nodup_insertOnce _ _ h)

lemma mem_map_foldl_insertOnce {α : Type} (g : α → Cell) :
    ∀ (l : List α) (s : List Cell) (a : α), a ∈ l →
      g a ∈ l.foldl (fun s2 a => insertOnce s2 (g a)) s := by
  intro l
  induction l with
  | nil => intro s a ha; simp at ha
  | cons b l ih =>
    intro s a ha
    rcases List.mem_cons.mp ha with h | h
    · subst h
      exact mem_foldl_insertOnce g l _ (mem_insertOnce_self _ _)
    · exact ih _ _ h

lemma mem_emitSegment_of_mem {x : Cell} (s : List Cell) (p q : Point) (h : x ∈ s) :
    x ∈ emitSegment d latLngToCell s p q := by
  simp only [emitSegment]
  split_ifs
  · exact mem_foldl_insertOnce _ _ _ (mem_insertOnce_of_mem _ _ h)
  · exact mem_insertOnce_of_mem _ _ h

lemma start_mem_emitSegment (s : List Cell) (p q : Point) :
    cellOfPoint latLngToCell p ∈ emitSegment d latLngToCell s p q := by
  simp only [emitSegment]
  split_ifs
  · exact mem_foldl_insertOnce _ _ _ (mem_insertOnce_self _ _)
  · exact mem_insertOnce_self _ _

lemma interp_mem_emitSegment (s : List Cell) (p q : Point) {pt : Point}
    (hgap : MAX_GAP_METERS < d p q) (hpt : pt ∈ interpPoints d p q) :
    cellOfPoint latLngToCell pt ∈ emitSegment d latLngToCell s p q := by
  simp only [emitSegment]
  rw [if_pos hgap]
  exact mem_map_foldl_insertOnce _ _ _ _ hpt

lemma nodup_emitSegment (s : List Cell) (p q : Point) (h : s.Nodup) :
    (emitSegment d latLngToCell s p q).Nodup := by
  simp only [emitSegment]
  split_ifs
  · exact nodup_foldl_insertOnce _ _ _ (nodup_insertOnce _ _ h)
  · exact nodup_insertOnce _ _ h

lemma mem_processPairs_of_mem {x : Cell} :
    ∀ (cs : List Point) (s : List Cell), x ∈ s →
      x ∈ processPairs d latLngToCell s cs := by
  intro cs
  induction cs with
  | nil => intro s h; simpa [processPairs] using h
  | cons p rest ih =>
    cases rest with
    | nil => intro s h; simpa [processPairs] using h
    | cons q rest2 =>
      intro s h
      simp only [processPairs]
      exact ih _ (mem_emitSegment_of_mem _ _ _ _ _ h)

lemma nodup_processPairs :
    ∀ (cs : List Point) (s : List Cell), s.Nodup →
      (processPairs d latLngToCell s cs).Nodup := by
  intro cs
  induction cs with
  | nil => intro s h; simpa [processPairs] using h
  | cons p rest ih =>
    cases rest with
    | nil => intro s h; simpa [processPairs] using h
    | cons q rest2 =>
      intro s h
      simp only [processPairs]
      exact ih _ (nodup_emitSegment _ _ _ _ _ h)

lemma dropLast_mem_processPairs :
    ∀ (cs : List Point) (s : List Cell) (pt : Point), pt ∈ cs.dropLast →
      cellOfPoint latLngToCell pt ∈ processPairs d latLngToCell s cs := by
  intro cs
  induction cs with
  | nil => intro s pt hpt; simp at hpt
  | cons p rest ih =>
    cases rest with
    | nil => intro s pt hpt; simp at hpt
    | cons q rest2 =>
      intro s pt hpt
      have hd : (p :: q :: rest2).dropLast = p :: (q :: rest2).dropLast := by
        simp
      rw [hd] at hpt
      simp only [processPairs]
      rcases List.mem_cons.mp hpt with h | h
      · subst h
        exact mem_processPairs_of_mem _ _ _ _ (start_mem_emitSegment _ _ _ _ _)
      · exact ih _ _ h


/-! ### C5: gap interpolation leaves no holes -/

lemma lerpPoint_zero (p q : Point) : lerpPoint p q 0 = p := by
  unfold lerpPoint
  simp

lemma lerpPoint_one (p q : Point) : lerpPoint p q 1 = q := by
  unfold lerpPoint
  obtain ⟨a, b⟩ := p
  obtain ⟨c, e⟩ := q
  simp only [Prod.mk.injEq]
  constructor <;> ring

/-- Under the gap hypothesis the sub-segment count is at least 2 and equals
the ceiling of `dist / threshold`. -/
lemma stepsFor_spec {dist : ℚ} (hgap : MAX_GAP_METERS < dist) :
    (stepsFor dist : ℤ) = ⌈dist / MAX_GAP_METERS⌉ ∧ 2 ≤ stepsFor dist := by
  have h1 : (1 : ℚ) < dist / MAX_GAP_METERS := by
    rw [lt_div_iff₀ (show (0 : ℚ) < MAX_GAP_METERS by norm_num [MAX_GAP_METERS])]
    simpa [MAX_GAP_METERS] using hgap
  have hceil : (1 : ℤ) < ⌈dist / MAX_GAP_METERS⌉ := Int.lt_ceil.mpr (by exact_mod_cast h1)
  constructor
  · exact Int.toNat_of_nonneg (by omega)
  · unfold stepsFor
    omega

/-- The distance is at most `threshold * steps`. -/
lemma dist_le_steps {dist : ℚ} (hgap : MAX_GAP_METERS < dist) :
    dist ≤ MAX_GAP_METERS * (stepsFor dist : ℚ) := by
  obtain ⟨heq, _⟩ := stepsFor_spec hgap
  have hle : dist / MAX_GAP_METERS ≤ (⌈dist / MAX_GAP_METERS⌉ : ℚ) :=
    Int.le_ceil _
  have hcast : ((stepsFor dist : ℚ)) = ((⌈dist / MAX_GAP_METERS⌉ : ℤ) : ℚ) := by
    rw [← heq]
    push_cast
    ring
  rw [div_le_iff₀ (show (0 : ℚ) < MAX_GAP_METERS by norm_num [MAX_GAP_METERS])] at hle
  rw [mul_comm]
  calc dist ≤ (⌈dist / MAX_GAP_METERS⌉ : ℚ) * MAX_GAP_METERS := hle
    _ = (stepsFor dist : ℚ) * MAX_GAP_METERS := by rw [hcast]



/-- The point sequence of one oversized gap — segment start, interpolated
points, segment end — is the image of `j ↦ lerp (j / steps)` over
`j = 0, …, steps`. -/
lemma gap_sequence_eq (p q : Point) (hgap : MAX_GAP_METERS < d p q) :
    p :: interpPoints d p q ++ [q]
      = (List.range (stepsFor (d p q) + 1)).map
          (fun (j : ℕ) => lerpPoint p q ((j : ℚ) / (stepsFor (d p q) : ℚ))) := by
  obtain ⟨-, h2⟩ := stepsFor_spec hgap
  obtain ⟨m, hm⟩ : ∃ m, stepsFor (d p q) = m + 2 := ⟨stepsFor (d p q) - 2, by omega⟩
  unfold interpPoints
  rw [hm, List.range_eq_range', List.range'_succ 0 (m + 2) 1,
    show m + 2 - 1 = m + 1 by omega, List.range'_concat 1 (m + 1)]
  have hg0 : lerpPoint p q (((0 : ℕ) : ℚ) / ((m + 2 : ℕ) : ℚ)) = p := by
    rw [Nat.cast_zero, zero_div, lerpPoint_zero]
  have hgn : lerpPoint p q (((1 + 1 * (m + 1) : ℕ) : ℚ) / ((m + 2 : ℕ) : ℚ)) = q := by
    have hc : ((1 + 1 * (m + 1) : ℕ) : ℚ) = ((m + 2 : ℕ) : ℚ) := by push_cast; ring
    have hnz : ((m + 2 : ℕ) : ℚ) ≠ 0 := by positivity
    rw [hc, div_self hnz, lerpPoint_one]
  simp only [List.map_append, List.map_cons, List.map_nil]
  rw [hg0, hgn]
  simp

/-- If the library distance scales linearly along coordinate-space segments
(exact for a planar metric; the flat-earth approximation of the great-circle
distance at city scale), then no two consecutive emitted points of an
oversized gap are farther apart than the threshold. -/
lemma gap_chain (p q : Point)
    (haff : ∀ t u : ℚ, 0 ≤ t → t ≤ u → u ≤ 1 →
      d (lerpPoint p q t) (lerpPoint p q u) = (u - t) * d p q)
    (hgap : MAX_GAP_METERS < d p q) :
    List.Chain' (fun a b => d a b ≤ MAX_GAP_METERS)
      (p :: interpPoints d p q ++ [q]) := by
  rw [gap_sequence_eq d p q hgap]
  obtain ⟨-, h2⟩ := stepsFor_spec hgap
  rw [List.chain'_map, List.chain'_range_succ]
  intro i hi
  have hn0 : (0 : ℚ) < (stepsFor (d p q) : ℚ) := by
    have : 0 < stepsFor (d p q) := by omega
    exact_mod_cast this
  have hstep : d (lerpPoint p q ((i : ℚ) / (stepsFor (d p q) : ℚ)))
      (lerpPoint p q (((i + 1 : ℕ) : ℚ) / (stepsFor (d p q) : ℚ)))
      = (((i + 1 : ℕ) : ℚ) / (stepsFor (d p q) : ℚ)
          - (i : ℚ) / (stepsFor (d p q) : ℚ)) * d p q := by
    apply haff
    · positivity
    · gcongr
      linarith
    · rw [div_le_one hn0]
      have : i + 1 ≤ stepsFor (d p q) := by omega
      exact_mod_cast this
  rw [hstep]
  have hfrac : ((i + 1 : ℕ) : ℚ) / (stepsFor (d p q) : ℚ)
      - (i : ℚ) / (stepsFor (d p q) : ℚ) = 1 / (stepsFor (d p q) : ℚ) := by
    rw [div_sub_div_same]
    push_cast
    ring_nf
  rw [hfrac, one_div, inv_mul_eq_div, div_le_iff₀ hn0, mul_comm]
  rw [mul_comm]
  exact dist_le_steps hgap

/-- **C5.** For a consecutive pair farther apart than the 50 m threshold,
`trackToH3Indices` emits `ceil(d/50) - 1` interpolated points at the equal
fractions `j / ceil(d/50)` along the segment and adds the cell of each, and
— whenever the distance function scales linearly along coordinate-space
segments — no two consecutive points of the emitted sequence (start,
interpolated points, end) are farther apart than the threshold. -/
theorem c5_gap_interpolation (p q : Point) (s : List Cell)
    (haff : ∀ t u : ℚ, 0 ≤ t → t ≤ u → u ≤ 1 →
      d (lerpPoint p q t) (lerpPoint p q u) = (u - t) * d p q)
    (hgap : MAX_GAP_METERS < d p q) :
    (stepsFor (d p q) : ℤ) = ⌈d p q / MAX_GAP_METERS⌉
    ∧ (interpPoints d p q).length = stepsFor (d p q) - 1
    ∧ interpPoints d p q
        = (List.range' 1 (stepsFor (d p q) - 1)).map
            (fun (j : ℕ) => lerpPoint p q ((j : ℚ) / (stepsFor (d p q) : ℚ)))
    ∧ (∀ pt ∈ interpPoints d p q,
        cellOfPoint latLngToCell pt ∈ emitSegment d latLngToCell s p q)
    ∧ List.Chain' (fun a b => d a b ≤ MAX_GAP_METERS)
        (p :: interpPoints d p q ++ [q]) := by
  refine ⟨(stepsFor_spec hgap).1, ?_, rfl, ?_, gap_chain d p q haff hgap⟩
  · unfold interpPoints
    rw [List.length_map, List.length_range']
  · intro pt hpt
    exact interp_mem_emitSegment d latLngToCell s p q hgap hpt

/-- Witness for `c5_gap_interpolation`: the vertical segment from `(0,0)` to
`(0,120)` under the distance `(a, b) ↦ b.2 - a.2`, which scales linearly
along segments. -/
theorem c5_gap_interpolation_witness :
    (∀ t u : ℚ, 0 ≤ t → t ≤ u → u ≤ 1 →
      (fun a b : Point => b.2 - a.2)
          (lerpPoint ((0 : ℚ), (0 : ℚ)) ((0 : ℚ), (120 : ℚ)) t)
          (lerpPoint ((0 : ℚ), (0 : ℚ)) ((0 : ℚ), (120 : ℚ)) u)
        = (u - t) * (fun a b : Point => b.2 - a.2)
            ((0 : ℚ), (0 : ℚ)) ((0 : ℚ), (120 : ℚ)))
    ∧ MAX_GAP_METERS
        < (fun a b : Point => b.2 - a.2) ((0 : ℚ), (0 : ℚ)) ((0 : ℚ), (120 : ℚ))
    ∧ List.Chain'
        (fun a b => (fun a b : Point => b.2 - a.2) a b ≤ MAX_GAP_METERS)
        (((0 : ℚ), (0 : ℚ))
          :: interpPoints (fun a b : Point => b.2 - a.2)
              ((0 : ℚ), (0 : ℚ)) ((0 : ℚ), (120 : ℚ))
          ++ [((0 : ℚ), (120 : ℚ))]) := by
  have haff : ∀ t u : ℚ, 0 ≤ t → t ≤ u → u ≤ 1 →
      (fun a b : Point => b.2 - a.2)
          (lerpPoint ((0 : ℚ), (0 : ℚ)) ((0 : ℚ), (120 : ℚ)) t)
          (lerpPoint ((0 : ℚ), (0 : ℚ)) ((0 : ℚ), (120 : ℚ)) u)
        = (u - t) * (fun a b : Point => b.2 - a.2)
            ((0 : ℚ), (0 : ℚ)) ((0 : ℚ), (120 : ℚ)) := by
    intro t u _ _ _
    simp only [lerpPoint]
    ring
  have hgap : MAX_GAP_METERS
      < (fun a b : Point => b.2 - a.2) ((0 : ℚ), (0 : ℚ)) ((0 : ℚ), (120 : ℚ)) := by
    norm_num [MAX_GAP_METERS]
  exact ⟨haff, hgap,
    (c5_gap_interpolation (fun a b : Point => b.2 - a.2) (fun a b => a + b)
      ((0 : ℚ), (0 : ℚ)) ((0 : ℚ), (120 : ℚ)) ([] : List ℚ) haff hgap).2.2.2.2⟩


/-- **C6.** `trackToH3Indices` maps the empty path to the empty set and a
single-point path to exactly the one-cell set of that point; for every
non-empty path the output has no duplicates and contains the cells of the
first and last points. -/
theorem c6_trackToCells_basics :
    trackToH3Indices d latLngToCell ([] : List Point) = []
    ∧ (∀ p : Point,
        trackToH3Indices d latLngToCell [p] = [cellOfPoint latLngToCell p])
    ∧ (∀ (coords : List Point) (h : coords ≠ []),
        (trackToH3Indices d latLngToCell coords).Nodup
        ∧ cellOfPoint latLngToCell (coords.head h)
            ∈ trackToH3Indices d latLngToCell coords
        ∧ cellOfPoint latLngToCell (coords.getLast h)
            ∈ trackToH3Indices d latLngToCell coords) := by
  refine ⟨rfl, ?_, ?_⟩
  · intro p
    simp [trackToH3Indices, processPairs, insertOnce]
  · intro coords h
    obtain ⟨c, cs, rfl⟩ := List.exists_cons_of_ne_nil h
    refine ⟨?_, ?_, ?_⟩
    · simp only [trackToH3Indices]
      exact nodup_insertOnce _ _ (nodup_processPairs _ _ _ _ List.nodup_nil)
    · cases cs with
      | nil => simp [trackToH3Indices, processPairs, insertOnce]
      | cons q rest =>
        simp only [trackToH3Indices, List.head_cons]
        apply mem_insertOnce_of_mem
        apply dropLast_mem_processPairs
        simp
    · simp only [trackToH3Indices]
      exact mem_insertOnce_self _ _

/-- Witness for `c6_trackToCells_basics` on a concrete two-point path. -/
theorem c6_trackToCells_basics_witness :
    ([((0 : ℚ), (0 : ℚ)), ((1 : ℚ), (1 : ℚ))] ≠ ([] : List Point))
    ∧ ((trackToH3Indices (fun _ _ => 0) (fun a b => a + b)
          [((0 : ℚ), (0 : ℚ)), ((1 : ℚ), (1 : ℚ))]).Nodup
      ∧ cellOfPoint (fun a b => a + b)
          (([((0 : ℚ), (0 : ℚ)), ((1 : ℚ), (1 : ℚ))]).head (by simp))
          ∈ trackToH3Indices (fun _ _ => 0) (fun a b => a + b)
              [((0 : ℚ), (0 : ℚ)), ((1 : ℚ), (1 : ℚ))]
      ∧ cellOfPoint (fun a b => a + b)
          (([((0 : ℚ), (0 : ℚ)), ((1 : ℚ), (1 : ℚ))]).getLast (by simp))
          ∈ trackToH3Indices (fun _ _ => 0) (fun a b => a + b)
              [((0 : ℚ), (0 : ℚ)), ((1 : ℚ), (1 : ℚ))]) :=
  ⟨by simp,
    (c6_trackToCells_basics (fun _ _ => 0) (fun a b => a + b)).2.2
      [((0 : ℚ), (0 : ℚ)), ((1 : ℚ), (1 : ℚ))] (by simp)⟩

/-- **C10.** The output of `trackToH3Indices` contains the grid cell of every
point of the input list: each point of the list is emitted either as a
segment start in the pair loop or as the final point. -/
theorem c10_every_point_covered (coords : List Point) (pt : Point)
    (h : pt ∈ coords) :
    cellOfPoint latLngToCell pt ∈ trackToH3Indices d latLngToCell coords := by
  rcases coords with _ | ⟨c, cs⟩
  · simp at h
  · have hsplit : pt ∈ (c :: cs).dropLast
        ∨ pt = (c :: cs).getLast (List.cons_ne_nil c cs) := by
      have hdg := List.dropLast_append_getLast (l := c :: cs) (List.cons_ne_nil c cs)
      rw [← hdg] at h
      rcases List.mem_append.mp h with h1 | h1
      · exact Or.inl h1
      · right; simpa using h1
    simp only [trackToH3Indices]
    rcases hsplit with h1 | h1
    · exact mem_insertOnce_of_mem _ _ (dropLast_mem_processPairs _ _ _ _ _ h1)
    · rw [h1]
      exact mem_insertOnce_self _ _

/-- Witness for `c10_every_point_covered` on a concrete path. -/
theorem c10_every_point_covered_witness :
    (((0 : ℚ), (0 : ℚ)) ∈ [((0 : ℚ), (0 : ℚ)), ((1 : ℚ), (1 : ℚ))])
    ∧ cellOfPoint (fun a b => a + b) (((0 : ℚ), (0 : ℚ)) : Point)
        ∈ trackToH3Indices (fun _ _ => 0) (fun a b => a + b)
            [((0 : ℚ), (0 : ℚ)), ((1 : ℚ), (1 : ℚ))] :=
  ⟨by simp,
    c10_every_point_covered (fun _ _ => 0) (fun a b => a + b)
      [((0 : ℚ), (0 : ℚ)), ((1 : ℚ), (1 : ℚ))] ((0 : ℚ), (0 : ℚ)) (by simp)⟩

end GridCoverage

/-! ## Fog Zone Analysis (`src/lib/actions/fogAnalysis.ts`)

`getFogZones` is a server action whose first step fetches the borough's
uncleared-hex list from the database; the embedding replaces that fetch by
its result, an input list.  The external geospatial primitives are function
parameters: `cellToLatLng`/`latLngToCell` (h3-js), `gridDistance` (h3-js,
`Option`-valued because the library throws for cells on different
icosahedron faces), the geodesic `distance` and `centerOfMass` (turf).
`@turf/clusters-dbscan` is modelled by an executable DBSCAN
(`dbscanClusters`): a point is a core point if at least `minPoints` input
points (inclusive) are within `eps`; a cluster is the set of input points
within `eps` of one connected component of core points, enumerated in input
order. -/

/-- `HEX_AREA_KM2 = 0.015` from `src/lib/actions/fogAnalysis.ts`. -/
def HEX_AREA_KM2 : ℚ := 15 / 1000

/-- `DEFAULT_SEARCH_RADIUS_STEPS` from `src/lib/actions/fogAnalysis.ts`. -/
def DEFAULT_SEARCH_RADIUS_STEPS : ℤ := 50

/-- `DBSCAN_MAX_DISTANCE_KM = 0.5` from `src/lib/actions/fogAnalysis.ts`. -/
def DBSCAN_MAX_DISTANCE_KM : ℚ := 1 / 2

/-- `DBSCAN_MIN_POINTS` from `src/lib/actions/fogAnalysis.ts`. -/
def DBSCAN_MIN_POINTS : ℕ := 20

/-- `MAX_ZONES_RETURNED` from `src/lib/actions/fogAnalysis.ts`. -/
def MAX_ZONES_RETURNED : ℕ := 20

/-- `FogZone` from `src/lib/actions/fogAnalysis.ts`. -/
structure FogZone where
  id : String
  centroid : Point
  hexCount : ℕ
  estimatedAreaKm2 : ℚ
  distanceFromUser : ℚ
  priorityScore : ℚ
deriving DecidableEq

section FogAnalysis

variable {Cell : Type} [DecidableEq Cell]
variable (geoDist : Point → Point → ℚ)

/-- The input points within `eps` of `p` (`p` itself included whenever the
distance function is reflexive, as the geodesic distance is). -/
def neighborsWithin (pts : List Point) (eps : ℚ) (p : Point) : List Point :=
  pts.filter (fun q => decide (geoDist p q ≤ eps))

/-- DBSCAN core points: at least `minPts` input points within `eps`. -/
def corePoints (pts : List Point) (eps : ℚ) (minPts : ℕ) : List Point :=
  pts.filter (fun p => decide (minPts ≤ (neighborsWithin geoDist pts eps p).length))

/-- One expansion step of a component of core points. -/
def growComponent (eps : ℚ) (cores S : List Point) : List Point :=
  cores.filter (fun r => decide (∃ q ∈ S, q = r ∨ geoDist q r ≤ eps))

/-- The core points reachable from `p` through `eps`-steps. -/
def component (eps : ℚ) (cores : List Point) (p : Point) : List Point :=
  (growComponent geoDist eps cores)^[cores.length] [p]

/-- One representative core point per component, in input order. -/
def clusterReps (eps : ℚ) (cores : List Point) : List Point :=
  cores.foldl
    (fun acc p =>
      if ∃ r ∈ acc, p ∈ component geoDist eps cores r then acc else acc ++ [p])
    []

/-- The members of the cluster represented by core point `r`: the input
points within `eps` of some core point of `r`'s component, in input order. -/
def clusterMembers (eps : ℚ) (pts cores : List Point) (r : Point) : List Point :=
  pts.filter
    (fun q => decide (∃ c ∈ component geoDist eps cores r, geoDist c q ≤ eps))

/-- Model of `@turf/clusters-dbscan` composed with the cluster-grouping loop
of `getFogZones` (step 5): the clusters in discovery order. -/
def dbscanClusters (pts : List Point) (eps : ℚ) (minPts : ℕ) : List (List Point) :=
  (clusterReps geoDist eps (corePoints geoDist pts eps minPts)).map
    (clusterMembers geoDist eps pts (corePoints geoDist pts eps minPts))

variable (centerOfMass : List Point → Point)

/-- The body of the zone-building loop of `getFogZones` (step 6). -/
def mkFogZone (userPoint : Point) (idx : ℕ) (clusterPoints : List Point) :
    FogZone :=
  let hexCount := clusterPoints.length
  let center := centerOfMass clusterPoints
  let distanceFromUser := geoDist userPoint center
  { id := "zone_" ++ toString idx
    centroid := center
    hexCount := hexCount
    estimatedAreaKm2 := round3 ((hexCount : ℚ) * HEX_AREA_KM2)
    distanceFromUser := round2 distanceFromUser
    priorityScore := round2 ((hexCount : ℚ) / (distanceFromUser + 1)) }

/-- The zone-building loop of `getFogZones` (step 6), with the running
`zoneIndex`. -/
def buildZones (userPoint : Point) : ℕ → List (List Point) → List FogZone
  | _, [] => []
  | idx, cl :: rest =>
    mkFogZone geoDist centerOfMass userPoint idx cl
      :: buildZones userPoint (idx + 1) rest

variable (latLngToCell : ℚ → ℚ → Cell) (cellToLatLng : Cell → ℚ × ℚ)
variable (gridDistance : Cell → Cell → Option ℤ)

/-- The pre-filter predicate of `getFogZones` (step 2): keep a hex whenever
`gridDistance` succeeds with a value at most the search radius; a failing
`gridDistance` (modelled as `none`) excludes the hex instead of raising. -/
def isNearby (userHex : Cell) (searchRadius : ℤ) (hex : Cell) : Bool :=
  match gridDistance userHex hex with
  | some dist => decide (dist ≤ searchRadius)
  | none => false

/-- The spatial pre-filter of `getFogZones` (the spec's `filterNearby`). -/
def filterNearby (cells : List Cell) (center : Cell) (maxGridSteps : ℤ) :
    List Cell :=
  cells.filter (isNearby gridDistance center maxGridSteps)

/-- `getFogZones` from `src/lib/actions/fogAnalysis.ts` (steps 2-7), the
database fetch replaced by its result. -/
def getFogZones (allUnclearedHexes : List Cell) (userLocation : Point)
    (searchRadius : ℤ) : List FogZone :=
  if allUnclearedHexes = [] then [] else
  let userHex := latLngToCell userLocation.2 userLocation.1
  let nearbyHexes := filterNearby gridDistance allUnclearedHexes userHex searchRadius
  if nearbyHexes.length < DBSCAN_MIN_POINTS then [] else
  let points : List Point :=
    nearbyHexes.map (fun hex => ((cellToLatLng hex).2, (cellToLatLng hex).1))
  let clusters := dbscanClusters geoDist points DBSCAN_MAX_DISTANCE_KM DBSCAN_MIN_POINTS
  let fogZones := buildZones geoDist centerOfMass userLocation 0 clusters
  (fogZones.mergeSort (fun a b => decide (b.priorityScore ≤ a.priorityScore))).take
    MAX_ZONES_RETURNED

lemma clusterReps_subset (eps : ℚ) (cores : List Point) :
    ∀ r ∈ clusterReps geoDist eps cores, r ∈ cores := by
  unfold clusterReps
  have key : ∀ (l acc : List Point),
      (∀ x ∈ acc, x ∈ cores) → (∀ x ∈ l, x ∈ cores) →
      ∀ r ∈ l.foldl
          (fun acc p =>
            if ∃ r ∈ acc, p ∈ component geoDist eps cores r then acc
            else acc ++ [p]) acc,
        r ∈ cores := by
    intro l
    induction l with
    | nil => intro acc hacc _ r hr; exact hacc r hr
    | cons p l ih =>
      intro acc hacc hl r hr
      rw [List.foldl_cons] at hr
      refine ih _ ?_ (fun x hx => hl x (List.mem_cons_of_mem _ hx)) r hr
      intro x hx
      split_ifs at hx with hc
      · exact hacc x hx
      · rcases List.mem_append.mp hx with h1 | h1
        · exact hacc x h1
        · simp only [List.mem_singleton] at h1
          subst h1
          exact hl x (List.mem_cons_self _ _)
  intro r hr
  exact key cores [] (by simp) (fun x hx => hx) r hr

lemma self_mem_component (eps : ℚ) (cores : List Point) {p : Point}
    (hp : p ∈ cores) : p ∈ component geoDist eps cores p := by
  unfold component
  have key : ∀ (k : ℕ) (S : List Point), p ∈ S →
      p ∈ (growComponent geoDist eps cores)^[k] S := by
    intro k
    induction k with
    | zero => intro S h; simpa using h
    | succ k ih =>
      intro S h
      rw [Function.iterate_succ_apply]
      apply ih
      unfold growComponent
      rw [List.mem_filter]
      refine ⟨hp, ?_⟩
      simp only [decide_eq_true_eq]
      exact ⟨p, h, Or.inl rfl⟩
  exact key _ _ (List.mem_singleton.mpr rfl)

lemma corePoints_dense {pts : List Point} {eps : ℚ} {minPts : ℕ} {r : Point}
    (h : r ∈ corePoints geoDist pts eps minPts) :
    minPts ≤ (neighborsWithin geoDist pts eps r).length := by
  unfold corePoints at h
  rw [List.mem_filter] at h
  simpa using h.2

lemma length_filter_le_filter {α : Type} (l : List α) (p q : α → Bool)
    (h : ∀ a, p a = true → q a = true) :
    (l.filter p).length ≤ (l.filter q).length := by
  induction l with
  | nil => simp
  | cons a l ih =>
    by_cases hp : p a = true
    · rw [List.filter_cons_of_pos hp, List.filter_cons_of_pos (h a hp)]
      simpa using ih
    · rw [List.filter_cons_of_neg (by simpa using hp)]
      by_cases hq : q a = true
      · rw [List.filter_cons_of_pos hq]
        exact le_trans ih (by simp)
      · rw [List.filter_cons_of_neg (by simpa using hq)]
        exact ih

/-- Every cluster produced by the DBSCAN model has at least `minPts`
members: its representative is a core point, whose full `eps`-neighborhood
(of at least `minPts` input points) is contained in the cluster. -/
lemma dbscan_cluster_size {pts : List Point} {eps : ℚ} {minPts : ℕ}
    {cl : List Point} (h : cl ∈ dbscanClusters geoDist pts eps minPts) :
    minPts ≤ cl.length := by
  unfold dbscanClusters at h
  rcases List.mem_map.mp h with ⟨r, hr, rfl⟩
  have hrcore : r ∈ corePoints geoDist pts eps minPts :=
    clusterReps_subset geoDist eps _ r hr
  have hdense := corePoints_dense geoDist hrcore
  have hself := self_mem_component geoDist eps _ hrcore
  refine le_trans hdense ?_
  unfold clusterMembers neighborsWithin
  apply length_filter_le_filter
  intro a ha
  simp only [decide_eq_true_eq] at ha ⊢
  exact ⟨r, hself, ha⟩

lemma mem_buildZones {userPoint : Point} :
    ∀ (idx : ℕ) (cls : List (List Point)) (z : FogZone),
      z ∈ buildZones geoDist centerOfMass userPoint idx cls →
      ∃ cl ∈ cls, ∃ j, z = mkFogZone geoDist centerOfMass userPoint j cl := by
  intro idx cls
  induction cls generalizing idx with
  | nil => intro z h; simp [buildZones] at h
  | cons cl rest ih =>
    intro z h
    simp only [buildZones] at h
    rcases List.mem_cons.mp h with h1 | h1
    · exact ⟨cl, List.mem_cons_self _ _, idx, h1⟩
    · rcases ih (idx + 1) z h1 with ⟨cl2, hcl2, j, hj⟩
      exact ⟨cl2, List.mem_cons_of_mem _ hcl2, j, hj⟩

/-- The sort/truncate pipeline of `getFogZones` (steps 6-7): each returned
zone comes from a cluster and satisfies the `FogZone` invariants; the output
is sorted by descending priority and at most `MAX_ZONES_RETURNED` long. -/
lemma zonesPipeline_facts (clusters : List (List Point)) (userLocation : Point)
    (hsize : ∀ cl ∈ clusters, DBSCAN_MIN_POINTS ≤ cl.length) :
    (∀ z ∈ ((buildZones geoDist centerOfMass userLocation 0 clusters).mergeSort
          (fun a b => decide (b.priorityScore ≤ a.priorityScore))).take
        MAX_ZONES_RETURNED,
      DBSCAN_MIN_POINTS ≤ z.hexCount
      ∧ ∃ dd : ℚ, z.distanceFromUser = round2 dd
          ∧ z.priorityScore = round2 ((z.hexCount : ℚ) / (dd + 1)))
    ∧ List.Pairwise (fun a b => b.priorityScore ≤ a.priorityScore)
        (((buildZones geoDist centerOfMass userLocation 0 clusters).mergeSort
            (fun a b => decide (b.priorityScore ≤ a.priorityScore))).take
          MAX_ZONES_RETURNED)
    ∧ (((buildZones geoDist centerOfMass userLocation 0 clusters).mergeSort
          (fun a b => decide (b.priorityScore ≤ a.priorityScore))).take
        MAX_ZONES_RETURNED).length ≤ MAX_ZONES_RETURNED := by
  refine ⟨?_, ?_, List.length_take_le _ _⟩
  · intro z hz
    have hz1 : z ∈ (buildZones geoDist centerOfMass userLocation 0 clusters).mergeSort
        (fun a b => decide (b.priorityScore ≤ a.priorityScore)) :=
      List.mem_of_mem_take hz
    have hz2 : z ∈ buildZones geoDist centerOfMass userLocation 0 clusters :=
      List.mem_mergeSort.mp hz1
    rcases mem_buildZones geoDist centerOfMass 0 clusters z hz2 with ⟨cl, hcl, j, rfl⟩
    refine ⟨hsize cl hcl, geoDist userLocation (centerOfMass cl), rfl, rfl⟩
  · have hsorted : List.Pairwise
        (fun a b : FogZone => decide (b.priorityScore ≤ a.priorityScore) = true)
        ((buildZones geoDist centerOfMass userLocation 0 clusters).mergeSort
          (fun a b => decide (b.priorityScore ≤ a.priorityScore))) :=
      List.sorted_mergeSort
        (fun a b c hab hbc => by
          simp only [decide_eq_true_eq] at hab hbc ⊢
          exact le_trans hbc hab)
        (fun a b => by
          simp only [Bool.or_eq_true, decide_eq_true_eq]
          exact le_total b.priorityScore a.priorityScore)
        (buildZones geoDist centerOfMass userLocation 0 clusters)
    have htake := hsorted.sublist (List.take_sublist MAX_ZONES_RETURNED _)
    exact htake.imp (fun h => of_decide_eq_true h)

/-- **C1.** Every fog zone returned by `getFogZones` has
`hexCount ≥ DBSCAN_MIN_POINTS`; its `priorityScore` is
`hexCount / (distanceFromUser + 1)` — the unrounded distance — rounded to 2
decimals (with `distanceFromUser` reported as that distance rounded to 2
decimals); the returned sequence is sorted by descending `priorityScore`;
and its length never exceeds `MAX_ZONES_RETURNED`. -/
theorem c1_getFogZones_invariants (allUnclearedHexes : List Cell)
    (userLocation : Point) (searchRadius : ℤ) :
    (∀ z ∈ getFogZones geoDist centerOfMass latLngToCell cellToLatLng
        gridDistance allUnclearedHexes userLocation searchRadius,
      DBSCAN_MIN_POINTS ≤ z.hexCount
      ∧ ∃ dd : ℚ, z.distanceFromUser = round2 dd
          ∧ z.priorityScore = round2 ((z.hexCount : ℚ) / (dd + 1)))
    ∧ List.Pairwise (fun a b => b.priorityScore ≤ a.priorityScore)
        (getFogZones geoDist centerOfMass latLngToCell cellToLatLng
          gridDistance allUnclearedHexes userLocation searchRadius)
    ∧ (getFogZones geoDist centerOfMass latLngToCell cellToLatLng
        gridDistance allUnclearedHexes userLocation searchRadius).length
      ≤ MAX_ZONES_RETURNED := by
  by_cases h1 : allUnclearedHexes = []
  · simp [getFogZones, h1]
  by_cases h2 : (filterNearby gridDistance allUnclearedHexes
      (latLngToCell userLocation.2 userLocation.1) searchRadius).length
      < DBSCAN_MIN_POINTS
  · simp [getFogZones, h1, h2]
  have heq : getFogZones geoDist centerOfMass latLngToCell cellToLatLng
      gridDistance allUnclearedHexes userLocation searchRadius
      = ((buildZones geoDist centerOfMass userLocation 0
          (dbscanClusters geoDist
            ((filterNearby gridDistance allUnclearedHexes
                (latLngToCell userLocation.2 userLocation.1) searchRadius).map
              (fun hex => ((cellToLatLng hex).2, (cellToLatLng hex).1)))
            DBSCAN_MAX_DISTANCE_KM DBSCAN_MIN_POINTS)).mergeSort
          (fun a b => decide (b.priorityScore ≤ a.priorityScore))).take
        MAX_ZONES_RETURNED := by
    simp only [getFogZones, if_neg h1, if_neg h2]
  rw [heq]
  exact zonesPipeline_facts geoDist centerOfMass _ userLocation
    (fun cl hcl => dbscan_cluster_size geoDist hcl)

/-- **C7.** An empty uncleared-hex list, or a pre-filtered neighborhood with
fewer than `DBSCAN_MIN_POINTS` cells, makes `getFogZones` return the empty
list (an empty result, not an error), short-circuiting before clustering. -/
theorem c7_early_returns :
    (∀ (userLocation : Point) (searchRadius : ℤ),
      getFogZones geoDist centerOfMass latLngToCell cellToLatLng gridDistance
        [] userLocation searchRadius = [])
    ∧ (∀ (allUnclearedHexes : List Cell) (userLocation : Point)
        (searchRadius : ℤ),
        (filterNearby gridDistance allUnclearedHexes
            (latLngToCell userLocation.2 userLocation.1) searchRadius).length
          < DBSCAN_MIN_POINTS →
        getFogZones geoDist centerOfMass latLngToCell cellToLatLng gridDistance
          allUnclearedHexes userLocation searchRadius = []) := by
  constructor
  · intro userLocation searchRadius
    simp [getFogZones]
  · intro allUnclearedHexes userLocation searchRadius h
    by_cases h1 : allUnclearedHexes = []
    · simp [getFogZones, h1]
    · simp only [getFogZones, if_neg h1, if_pos h]

/-- Witness for `c7_early_returns`: one hex whose grid distance to the user
fails, so the pre-filtered neighborhood is empty. -/
theorem c7_early_returns_witness :
    ((filterNearby (fun _ _ => (none : Option ℤ)) [(0 : ℤ)] 0 50).length
        < DBSCAN_MIN_POINTS)
    ∧ getFogZones (fun _ _ => 0) (fun _ => ((0 : ℚ), (0 : ℚ)))
        (fun _ _ => (0 : ℤ)) (fun _ => ((0 : ℚ), (0 : ℚ)))
        (fun _ _ => (none : Option ℤ)) [(0 : ℤ)] ((0 : ℚ), (0 : ℚ)) 50 = [] :=
  ⟨by simp [filterNearby, isNearby, DBSCAN_MIN_POINTS],
    (c7_early_returns (fun _ _ => 0) (fun _ => ((0 : ℚ), (0 : ℚ)))
        (fun _ _ => (0 : ℤ)) (fun _ => ((0 : ℚ), (0 : ℚ)))
        (fun _ _ => (none : Option ℤ))).2
      [(0 : ℤ)] ((0 : ℚ), (0 : ℚ)) 50
      (by simp [filterNearby, isNearby, DBSCAN_MIN_POINTS])⟩

/-- A 100-candidate pre-filter scenario: 30 cells within 10 grid steps of the
centre cell `0`, and 70 cells at grid distance 11 or more. -/
def scenarioCells : List ℤ :=
  (List.range 30).map (fun i => ((i % 11 : ℕ) : ℤ))
    ++ (List.range 70).map (fun i => ((i : ℤ) + 11))

/-- A concrete grid-distance function for the scenario: fails (cells on
different base-solid faces) on negative cells, otherwise the absolute
difference of the identifiers. -/
def scenarioGridDist (a b : ℤ) : Option ℤ :=
  if b < 0 then none else some (((a - b).natAbs : ℤ))

/-- **C4.** The spatial pre-filter returns exactly those input cells whose
grid distance to the centre is defined and at most `maxGridSteps`; any cell
for which the grid distance fails is excluded (the filter itself is total —
the library exception is absorbed as `none`).  On the 100-candidate scenario
with radius 10 — 30 cells within, 70 beyond — the output has exactly 30
entries, and a cell with a failing grid distance is dropped. -/
theorem c4_spatial_prefilter :
    (∀ (cells : List Cell) (center : Cell) (maxGridSteps : ℤ),
      filterNearby gridDistance cells center maxGridSteps
        = cells.filter (fun c =>
            decide (∃ dd : ℤ,
              gridDistance center c = some dd ∧ dd ≤ maxGridSteps)))
    ∧ (∀ (cells : List Cell) (center : Cell) (maxGridSteps : ℤ) (c : Cell),
        c ∈ filterNearby gridDistance cells center maxGridSteps
          ↔ c ∈ cells
            ∧ ∃ dd : ℤ, gridDistance center c = some dd ∧ dd ≤ maxGridSteps)
    ∧ (filterNearby scenarioGridDist scenarioCells 0 10).length = 30
    ∧ filterNearby scenarioGridDist [-5] 0 10 = [] := by
  have hpt : ∀ (center : Cell) (maxGridSteps : ℤ) (c : Cell),
      isNearby gridDistance center maxGridSteps c
        = decide (∃ dd : ℤ,
            gridDistance center c = some dd ∧ dd ≤ maxGridSteps) := by
    intro center maxGridSteps c
    unfold isNearby
    cases h : gridDistance center c with
    | none => simp
    | some dd => simp
  refine ⟨?_, ?_, ?_, ?_⟩
  · intro cells center maxGridSteps
    unfold filterNearby
    exact List.filter_congr (fun c _ => hpt center maxGridSteps c)
  · intro cells center maxGridSteps c
    unfold filterNearby
    rw [List.mem_filter, hpt]
    simp
  · decide
  · decide

end FogAnalysis

/-! ## Coverage summary (`src/scripts/migrations/001_master_hexagons_and_rpc.sql`) -/

/-- SQL `ROUND(x, 2)` on `NUMERIC`: round half away from zero to 2 decimal
places. -/
def sqlRound2 (x : ℚ) : ℚ :=
  if 0 ≤ x then ((⌊x * 100 + 1 / 2⌋ : ℚ) / 100)
  else -((⌊-x * 100 + 1 / 2⌋ : ℚ) / 100)

/-- The JSON object built by `get_fog_summary`; `percentComplete` is
`Option`-valued because SQL arithmetic on `NULL` yields `NULL`. -/
structure FogSummarySql where
  totalHexes : ℕ
  clearedHexes : ℕ
  unclearedHexes : ℤ
  percentComplete : Option ℚ
deriving DecidableEq

/-- `get_fog_summary` from the migration SQL, with the two `COUNT(*)` query
results (`v_total`, `v_cleared`) as inputs.  `percentComplete` models
`ROUND((v_cleared::NUMERIC / NULLIF(v_total, 0)) * 100, 2)`:
`NULLIF(v_total, 0)` is `NULL` when `v_total = 0`, and division by `NULL`,
multiplication of `NULL` and `ROUND` of `NULL` all propagate `NULL`. -/
def get_fog_summary (v_total v_cleared : ℕ) : FogSummarySql :=
  { totalHexes := v_total
    clearedHexes := v_cleared
    unclearedHexes := (v_total : ℤ) - (v_cleared : ℤ)
    percentComplete :=
      match (if v_total = 0 then none else some v_total : Option ℕ) with
      | none => none
      | some t => some (sqlRound2 ((v_cleared : ℚ) / (t : ℚ) * 100)) }

/-- **C8 (the code contradicts the claim).** With zero total cells,
`get_fog_summary` computes `percentComplete` as SQL `NULL` (an undefined
value serialized as JSON `null`), not the sentinel `0` the specification
promises — while a nonzero total produces the expected rounded percentage. -/
theorem c8_fog_summary_zero_total :
    (∀ v_cleared : ℕ, (get_fog_summary 0 v_cleared).percentComplete = none)
    ∧ (get_fog_summary 0 0).percentComplete ≠ some 0
    ∧ (get_fog_summary 4 1).percentComplete = some 25 := by
  refine ⟨fun v => rfl, by simp [get_fog_summary], ?_⟩
  simp only [get_fog_summary, sqlRound2]
  norm_num

end CloudyRoad
